import Mathlib

/-!
Shallow embedding of the event-normalization and workflow-mapping engine of
the gh-app-webhook-listener check processor
(src/gh-app-webhook-listener/src/check_processor/handler.py), together with
the dispatch collaborator (src/gh-app-webhook-listener/src/common/workflow_trigger.py).

JSON payloads and configuration values are modelled by the inductive type J.
Python dictionary access, truthiness and the idiom "x or y" are modelled by
pyGetD, truthy and pyOr.  Operations that would raise a Python exception
(an attribute access on a value of the wrong type) are modelled in the
Except monad.  The NormalizedEvent dataclass declares all scalar fields as
str, so a truthy non-string value stored into such a field is modelled as a
type error (outside the modelled domain); a falsy value passes through the
code as an empty-string default exactly as in the source.
-/

namespace Listener

/-- JSON-like values, the universe of webhook payloads and configuration. -/
inductive J where
  | null : J
  | bool (b : Bool) : J
  | num (n : Int) : J
  | str (s : String) : J
  | arr (xs : List J) : J
  | obj (kvs : List (String × J)) : J

/-- Python truthiness of a JSON value. -/
def truthy : J → Bool
  | .null => false
  | .bool b => b
  | .num n => n != 0
  | .str s => s != ""
  | .arr xs => !xs.isEmpty
  | .obj kvs => !kvs.isEmpty

/-- Python "x or y". -/
def pyOr (a b : J) : J := if truthy a then a else b

/-- Python dict.get(k, dflt); raises (AttributeError) on a non-dict receiver. -/
def pyGetD (v : J) (k : String) (dflt : J) : Except String J :=
  match v with
  | .obj kvs => .ok ((kvs.lookup k).getD dflt)
  | _ => .error "AttributeError: get on non-dict"

/-- Python dict.get(k), defaulting to None. -/
def pyGet (v : J) (k : String) : Except String J := pyGetD v k .null

/-- Coerce a value that the source stores into a str-typed field guarded by
an empty-string default: a falsy value becomes the empty string (as in the
source, which either supplies default "" or applies "or ..."); a truthy
string passes through; a truthy non-string is outside the modelled domain
(the dataclass declares str) and is modelled as an error. -/
def pyStrOr (v : J) : Except String String :=
  match v with
  | .str s => .ok s
  | v => if truthy v then .error "TypeError: non-string value" else .ok ""

/-- Python str(), total.  Container reprs are abbreviated (no claim
depends on them). -/
def pyStr : J → String
  | .null => "None"
  | .bool true => "True"
  | .bool false => "False"
  | .num n => toString n
  | .str s => s
  | .arr _ => "<list>"
  | .obj _ => "<dict>"

/-- Shell-glob matching, fuelled: every recursive call consumes exactly one
unit of the combined length of value and pattern, so with fuel equal to
that combined length the zero-fuel arm is unreachable and the function is
the structural image of the obvious recursion (a star matches any run of
characters, a question mark any single character, every other character
matches itself literally; the whole value must be consumed). -/
def globFuel : Nat → List Char → List Char → Bool
  | _, [], [] => true
  | 0, _, _ => false
  | f + 1, [], p :: ps => p == '*' && globFuel f [] ps
  | _, _ :: _, [] => false
  | f + 1, c :: vs, p :: ps =>
    if p == '*' then globFuel f (c :: vs) ps || globFuel f vs (p :: ps)
    else (p == '?' || p == c) && globFuel f vs ps

/-- Shell-glob matching of fnmatch.fnmatch as specified. -/
def globMatch (v p : List Char) : Bool :=
  globFuel (v.length + p.length) v p

/-- Embedding of the module-level helper match (fnmatch over value/pattern,
with falsy values and patterns read as the empty string; here both are
already strings). -/
def pyMatch (value pattern : String) : Bool :=
  globMatch value.toList pattern.toList

/-- Embedding of the helper any match: true iff some pattern matches. -/
def anyMatch (value : String) (patterns : List String) : Bool :=
  patterns.any (fun p => pyMatch value p)

/-- Left-to-right non-overlapping replacement of every occurrence of pat by
rep, the semantics of Python str.replace (an empty pat, which the source
never uses, is treated as matching nowhere).  Fuelled: every step consumes
at least one character of the subject and one unit of fuel, so with fuel
equal to the subject length the zero-fuel arm is unreachable. -/
def replaceFuel (pat rep : List Char) : Nat → List Char → List Char
  | _, [] => []
  | 0, s => s
  | f + 1, c :: rest =>
    if !pat.isEmpty && pat.isPrefixOf (c :: rest) then
      rep ++ replaceFuel pat rep f ((c :: rest).drop pat.length)
    else
      c :: replaceFuel pat rep f rest

/-- Replacement of every occurrence of pat by rep in s. -/
def replaceList (pat rep s : List Char) : List Char :=
  replaceFuel pat rep s.length s

/-- Python str.replace on strings. -/
def pyReplace (s pat rep : String) : String :=
  ⟨replaceList pat.toList rep.toList s.toList⟩

/-- Embedding of the helper strip ref: (ref or "").replace("refs/heads/", "").
The falsy-to-empty step is applied by the caller (pyStrOr). -/
def stripRef (ref : String) : String :=
  pyReplace ref "refs/heads/" ""

/-- Placeholder token for a variable name, the source f-string of braces
around the name. -/
def tok (k : String) : String := "\x7b" ++ k ++ "\x7d"

/-- String case of the substitution helper: fold str.replace over the
variable map in order. -/
def substituteStr (s : String) (vmap : List (String × String)) : String :=
  vmap.foldl (fun acc kv => pyReplace acc (tok kv.1) kv.2) s

mutual
/-- Embedding of the recursive substitution helper of the source: strings
get every placeholder occurrence replaced variable by variable in map
order, dicts and lists recurse preserving keys and order, all other leaves
pass through unchanged. -/
def substitute : J → List (String × String) → J
  | .str s, vmap => .str (substituteStr s vmap)
  | .obj kvs, vmap => .obj (substituteKVs kvs vmap)
  | .arr xs, vmap => .arr (substituteArr xs vmap)
  | .null, _ => .null
  | .bool b, _ => .bool b
  | .num n, _ => .num n

/-- Substitution mapped over the elements of a list node. -/
def substituteArr : List J → List (String × String) → List J
  | [], _ => []
  | v :: vs, vmap => substitute v vmap :: substituteArr vs vmap

/-- Substitution mapped over the values of a dict node, keys unchanged. -/
def substituteKVs : List (String × J) → List (String × String) → List (String × J)
  | [], _ => []
  | kv :: kvs, vmap => (kv.1, substitute kv.2 vmap) :: substituteKVs kvs vmap
end

/-- Set-insert into a duplicate-free accumulator list; models membership in
the Python set of changed files (the set iteration order is unspecified in
Python, so only membership and duplicate-freeness are meaningful). -/
def setInsert (s : List String) (x : String) : List String :=
  if x ∈ s then s else s ++ [x]

/-- Python set.update with a list of strings. -/
def setUpdate (s : List String) (xs : List String) : List String :=
  xs.foldl setInsert s

/-- Read a JSON value as a list of strings; any other shape is outside the
modelled domain of the changed-files extraction and is a type error. -/
def asStrList (v : J) : Except String (List String) :=
  match v with
  | .arr xs =>
    xs.mapM (fun x => match x with
      | .str s => Except.ok s
      | _ => Except.error "TypeError: non-string path")
  | _ => .error "TypeError: not a list"

/-- Loop body of the changed-files extraction: update the set with the
added, modified and removed lists of one commit. -/
def updateChangedWithCommit (changed : List String) (commit : J) :
    Except String (List String) := do
  let a ← asStrList (← pyGetD commit "added" (.arr []))
  let m ← asStrList (← pyGetD commit "modified" (.arr []))
  let r ← asStrList (← pyGetD commit "removed" (.arr []))
  pure (setUpdate (setUpdate (setUpdate changed a) m) r)

/-- Embedding of get changed files from push: union the added, modified and
removed lists of every commit into one set. -/
def get_changed_files_from_push (payload : J) : Except String (List String) := do
  let commitsV ← pyGetD payload "commits" (.arr [])
  let commits ← (match commitsV with
    | .arr xs => Except.ok xs
    | _ => Except.error "TypeError: commits not a list")
  commits.foldlM updateChangedWithCommit []

/-- Embedding of matches file patterns: an empty pattern list imposes no
constraint; otherwise some changed file must match some pattern. -/
def matches_file_patterns (changed_files patterns : List String) : Bool :=
  patterns.isEmpty || changed_files.any (fun f => patterns.any (fun p => pyMatch f p))

/-- The frozen repository identity dataclass. -/
structure RepoInfo where
  owner : String
  name : String
  deriving Repr, DecidableEq

/-- The frozen normalized-event dataclass; every scalar field is a string,
with dataclass defaults "" except merged and is-merge-group "false". -/
structure NormalizedEvent where
  event_type : String
  action : String
  delivery_id : String
  repo : RepoInfo
  head_branch : String
  base_branch : String
  head_sha : String
  base_sha : String
  pr_number : String
  merged : String
  is_merge_group : String
  event_id : String
  check_suite_id : String
  changed_files : Option (List String)
  deriving Repr, DecidableEq

/-- Embedding of the push normalizer. -/
def normalizePush (event_type action delivery_id : String) (repo : RepoInfo)
    (payload : J) : Except String NormalizedEvent := do
  let refS ← pyStrOr (← pyGetD payload "ref" (.str ""))
  let afterS ← pyStrOr (← pyGetD payload "after" (.str ""))
  let changed ← get_changed_files_from_push payload
  pure { event_type := event_type, action := action, delivery_id := delivery_id,
         repo := repo,
         head_branch := stripRef refS, base_branch := "",
         head_sha := afterS, base_sha := "",
         pr_number := "", merged := "false", is_merge_group := "false",
         event_id := "", check_suite_id := "",
         changed_files := some changed }

/-- Embedding of the merge-group normalizer. -/
def normalizeMergeGroup (event_type action delivery_id : String) (repo : RepoInfo)
    (payload : J) : Except String NormalizedEvent := do
  let mg := pyOr (← pyGetD payload "merge_group" (.obj [])) (.obj [])
  let mg_id := pyStr (pyOr (← pyGetD mg "id" (.str "")) (.str ""))
  let headRef ← pyStrOr (← pyGetD mg "head_ref" (.str ""))
  let baseRef ← pyStrOr (← pyGetD mg "base_ref" (.str ""))
  let headSha ← pyStrOr (← pyGetD mg "head_sha" (.str ""))
  let baseSha ← pyStrOr (← pyGetD mg "base_sha" (.str ""))
  pure { event_type := event_type, action := action, delivery_id := delivery_id,
         repo := repo,
         head_branch := stripRef headRef, base_branch := stripRef baseRef,
         head_sha := headSha, base_sha := baseSha,
         pr_number := "", merged := "false", is_merge_group := "true",
         event_id := mg_id, check_suite_id := mg_id,
         changed_files := none }

/-- Embedding of the pull-request normalizer. -/
def normalizePullRequest (event_type action delivery_id : String) (repo : RepoInfo)
    (payload : J) : Except String NormalizedEvent := do
  let pr := pyOr (← pyGetD payload "pull_request" (.obj [])) (.obj [])
  let pr_id := pyStr (pyOr (← pyGetD pr "id" (.str "")) (.str ""))
  let pr_head := pyOr (← pyGet pr "head") (.obj [])
  let pr_base := pyOr (← pyGet pr "base") (.obj [])
  let headRef ← pyStrOr (pyOr (← pyGetD pr_head "ref" (.str "")) (.str ""))
  let baseRef ← pyStrOr (pyOr (← pyGetD pr_base "ref" (.str "")) (.str ""))
  let headSha ← pyStrOr (pyOr (← pyGetD pr_head "sha" (.str "")) (.str ""))
  let baseSha ← pyStrOr (pyOr (← pyGetD pr_base "sha" (.str "")) (.str ""))
  let number := pyStr (pyOr (← pyGetD pr "number" (.str "")) (.str ""))
  let mergedV ← pyGetD pr "merged" (.bool false)
  pure { event_type := event_type, action := action, delivery_id := delivery_id,
         repo := repo,
         head_branch := headRef, base_branch := baseRef,
         head_sha := headSha, base_sha := baseSha,
         pr_number := number,
         merged := if truthy mergedV then "true" else "false",
         is_merge_group := "false",
         event_id := pr_id, check_suite_id := "",
         changed_files := none }

/-- Embedding of the check-suite / check-run normalizer (the payload object
is keyed by the event type name itself). -/
def normalizeCheck (event_type action delivery_id : String) (repo : RepoInfo)
    (payload : J) : Except String NormalizedEvent := do
  let obj := pyOr (← pyGetD payload event_type (.obj [])) (.obj [])
  let cs_id := pyStr (pyOr (← pyGetD obj "id" (.str "")) (.str ""))
  let prsV := pyOr (← pyGetD obj "pull_requests" (.arr [])) (.arr [])
  let pr0 ← (match prsV with
    | .arr [] => Except.ok (J.obj [])
    | .arr (x :: _) => Except.ok x
    | _ => Except.error "TypeError: indexing non-list")
  let pr0_base := pyOr (← pyGet pr0 "base") (.obj [])
  let headBranch ← pyStrOr (pyOr (← pyGetD obj "head_branch" (.str "")) (.str ""))
  let headSha ← pyStrOr (pyOr (← pyGetD obj "head_sha" (.str "")) (.str ""))
  let baseRef ← pyStrOr (pyOr (← pyGetD pr0_base "ref" (.str "")) (.str ""))
  let baseSha ← pyStrOr (pyOr (← pyGetD pr0_base "sha" (.str "")) (.str ""))
  let number := pyStr (pyOr (← pyGetD pr0 "number" (.str "")) (.str ""))
  pure { event_type := event_type, action := action, delivery_id := delivery_id,
         repo := repo,
         head_branch := headBranch, base_branch := baseRef,
         head_sha := headSha, base_sha := baseSha,
         pr_number := number, merged := "false", is_merge_group := "false",
         event_id := cs_id, check_suite_id := cs_id,
         changed_files := none }

/-- Embedding of normalize event: extract the common fields, build the
repository identity, then dispatch on the event type (the source dispatch
table keyed by event type name), falling back to a minimal event. -/
def normalize_event (message : J) : Except String NormalizedEvent := do
  let event_type ← pyStrOr (pyOr (← pyGetD message "event_type" (.str "")) (.str ""))
  let action ← pyStrOr (pyOr (← pyGetD message "action" (.str "")) (.str ""))
  let delivery_id ← pyStrOr (pyOr (← pyGetD message "delivery_id" (.str "")) (.str ""))
  let payload := pyOr (← pyGet message "payload") (.obj [])
  let repo_obj := pyOr (← pyGet payload "repository") (.obj [])
  let ownerObj := pyOr (← pyGet repo_obj "owner") (.obj [])
  let owner ← pyStrOr (pyOr (← pyGet ownerObj "login") (.str ""))
  let name ← pyStrOr (pyOr (← pyGet repo_obj "name") (.str ""))
  let repo : RepoInfo := { owner := owner, name := name }
  if event_type = "push" then
    normalizePush event_type action delivery_id repo payload
  else if event_type = "merge_group" then
    normalizeMergeGroup event_type action delivery_id repo payload
  else if event_type = "pull_request" then
    normalizePullRequest event_type action delivery_id repo payload
  else if event_type = "check_suite" || event_type = "check_run" then
    normalizeCheck event_type action delivery_id repo payload
  else
    pure { event_type := event_type, action := action, delivery_id := delivery_id,
           repo := repo,
           head_branch := "", base_branch := "", head_sha := "", base_sha := "",
           pr_number := "", merged := "false", is_merge_group := "false",
           event_id := "", check_suite_id := "",
           changed_files := none }

/-- The branches entry of a repository pattern, the tagged union of the
runtime shapes the source inspects: None, a single string, a list of
strings, or a dict with optional base and head pattern lists (an absent or
null sub-key is Option.none). -/
inductive BranchesCfg where
  | null : BranchesCfg
  | str (s : String) : BranchesCfg
  | list (ps : List String) : BranchesCfg
  | dict (base head : Option (List String)) : BranchesCfg
  deriving Repr, DecidableEq

/-- Python truthiness of an optional pattern list. -/
def optTruthy : Option (List String) → Bool
  | some (_ :: _) => true
  | _ => false

/-- Embedding of the primary-branch helper: for non-dict branch configs,
pull-request events are matched on the base branch, every other event type
on the head branch. -/
def primaryBranchForSimpleMatch (ev : NormalizedEvent) : String :=
  if ev.event_type = "pull_request" then ev.base_branch else ev.head_branch

/-- Embedding of branch matches for mapping, following the runtime type
inspection of the source arm by arm. -/
def branch_matches_for_mapping (ev : NormalizedEvent) (branches_cfg : BranchesCfg) : Bool :=
  match branches_cfg with
  | .null => true
  | .str s =>
    if s = "*" then true
    else pyMatch (primaryBranchForSimpleMatch ev) s
  | .list ps => anyMatch (primaryBranchForSimpleMatch ev) ps
  | .dict base head =>
    if ev.event_type = "push" then false
    else if !optTruthy base && !optTruthy head then false
    else if optTruthy base && !anyMatch ev.base_branch (base.getD []) then false
    else if optTruthy head && !anyMatch ev.head_branch (head.getD []) then false
    else true

/-- A repository pattern of the configuration.  The source reads owner and
repository with dictionary default "*" and file patterns and workflows with
default empty list; an absent key is modelled by that default value. -/
structure RepoPattern where
  owner : String
  repository : String
  branches : BranchesCfg
  file_patterns : List String
  workflows : List J

/-- A mapping rule of the configuration; actions is None when the key is
absent or null. -/
structure MappingRule where
  event_type : String
  actions : Option (List String)
  repository_patterns : List RepoPattern

/-- The configuration: a list of mapping rules. -/
structure Config where
  event_mappings : List MappingRule

/-- The action filter of the resolver: the source skips the rule iff the
actions value is truthy and does not contain the event action. -/
def actionsSkip (actions : Option (List String)) (a : String) : Bool :=
  match actions with
  | none => false
  | some l => !l.isEmpty && !l.contains a

/-- Embedding of find matching workflows: fold over the mapping rules, and
inside a matching rule fold over its repository patterns, appending the
workflows of every pattern that passes the owner, repository, branch and
(for push events with a changed-files list) file-pattern checks. -/
def find_matching_workflows (ev : NormalizedEvent) (config : Config) : List J :=
  config.event_mappings.foldl (fun workflows mapping =>
    if mapping.event_type != ev.event_type then workflows
    else if actionsSkip mapping.actions ev.action then workflows
    else mapping.repository_patterns.foldl (fun ws rp =>
      if !pyMatch ev.repo.owner rp.owner then ws
      else if !pyMatch ev.repo.name rp.repository then ws
      else if !branch_matches_for_mapping ev rp.branches then ws
      else if ev.event_type = "push" && ev.changed_files.isSome &&
              !matches_file_patterns (ev.changed_files.getD []) rp.file_patterns then ws
      else ws ++ rp.workflows) workflows) []

/-! Spec-side resolver.  The following two definitions follow the words of
the specification (not the source), for comparison with the embedded
resolver above: a rule applies when its event type equals the event type
and its actions set is absent or contains the action (the literal variant),
or absent or empty or containing the action (the amended variant); a
pattern applies when owner, repository and branches match, and for push
events also the file patterns. -/

/-- Rule filter as the claim words it: actions absent or containing the
event action. -/
def ruleAppliesLiteral (ev : NormalizedEvent) (m : MappingRule) : Bool :=
  m.event_type == ev.event_type &&
  (match m.actions with
   | none => true
   | some l => l.contains ev.action)

/-- Rule filter as the source behaves: an actions value that is absent or
empty imposes no constraint. -/
def ruleAppliesAmended (ev : NormalizedEvent) (m : MappingRule) : Bool :=
  m.event_type == ev.event_type &&
  (match m.actions with
   | none => true
   | some l => l.isEmpty || l.contains ev.action)

/-- Pattern filter as the claim words it: owner and repository glob match,
branch constraint match, and for push events a file-pattern match against
the changed files. -/
def patternApplies (ev : NormalizedEvent) (rp : RepoPattern) : Bool :=
  pyMatch ev.repo.owner rp.owner &&
  pyMatch ev.repo.name rp.repository &&
  branch_matches_for_mapping ev rp.branches &&
  (ev.event_type != "push" ||
   matches_file_patterns (ev.changed_files.getD []) rp.file_patterns)

/-- Declarative resolution, literal reading of the claim: concatenate, in
configuration order, the workflows of every pattern of every applying rule. -/
def resolveSpecLiteral (ev : NormalizedEvent) (config : Config) : List J :=
  (config.event_mappings.filter (ruleAppliesLiteral ev)).flatMap
    (fun m => (m.repository_patterns.filter (patternApplies ev)).flatMap
      (fun rp => rp.workflows))

/-- Declarative resolution with the amended action filter. -/
def resolveSpecAmended (ev : NormalizedEvent) (config : Config) : List J :=
  (config.event_mappings.filter (ruleAppliesAmended ev)).flatMap
    (fun m => (m.repository_patterns.filter (patternApplies ev)).flatMap
      (fun rp => rp.workflows))

/-! Dispatch loop.  The collaborator and the per-message workflow loop of
the batch handler, with the HTTP client modelled as an oracle returning
true on success and false when the request raises. -/

/-- Python dict subscript: raises KeyError on a missing key and a type
error on a non-dict receiver. -/
def pyIndex (v : J) (k : String) : Except String J :=
  match v with
  | .obj kvs =>
    match kvs.lookup k with
    | some x => Except.ok x
    | none => Except.error "KeyError"
  | _ => .error "TypeError: not subscriptable"

/-- Final segment of a slash-separated path, the semantics of
split("/") followed by taking the last element. -/
def lastSegment (s : List Char) : List Char :=
  s.foldl (fun acc c => if c = '/' then [] else acc ++ [c]) []

/-- Embedding of the trigger-workflow method of the collaborator: inside a
blanket try/except it strips a leading slash from the workflow file, keeps
only the final path segment as the workflow id, and performs the request;
any raised error (a failing request, or a non-string workflow file) is
caught and reported as the return value false. -/
def trigger_workflow (net : J → J → String → J → J → Bool)
    (owner repo workflow_file ref inputs : J) : Bool :=
  match workflow_file with
  | .str wf0 =>
    let l := match wf0.toList with
      | '/' :: rest => rest
      | l => l
    net owner repo ⟨lastSegment l⟩ ref inputs
  | _ => false

/-- One attempted workflow dispatch: the rendered call values and the
boolean returned by the collaborator. -/
structure Attempt where
  owner : J
  repo : J
  workflow_file : J
  ref : J
  inputs : J
  ok : Bool

/-- Embedding of the body of the per-workflow try block of the batch
handler: substitute the variables into the spec, read the required keys
(raising KeyError when absent), read ref and inputs with defaults, and call
the collaborator. -/
def render_and_trigger (net : J → J → String → J → J → Bool)
    (vmap : List (String × String)) (wf : J) : Except String Attempt := do
  let rendered := substitute wf vmap
  let ow ← pyIndex rendered "owner"
  let rp ← pyIndex rendered "repository"
  let wfile ← pyIndex rendered "workflow_file"
  let ref ← pyGetD rendered "ref" (.str "main")
  let inputs ← pyGetD rendered "inputs" (.obj [])
  pure { owner := ow, repo := rp, workflow_file := wfile, ref := ref,
         inputs := inputs,
         ok := trigger_workflow net ow rp wfile ref inputs }

/-- Embedding of the per-message workflow loop of the batch handler: each
spec is rendered and dispatched inside its own try block; a raised error
increments the error count by one and the loop continues.  The result is
the error count together with the list of attempted dispatch calls. -/
def dispatch_workflows (net : J → J → String → J → J → Bool)
    (vmap : List (String × String)) (wfs : List J) : Nat × List Attempt :=
  wfs.foldl (fun acc wf =>
    match render_and_trigger net vmap wf with
    | .ok a => (acc.1, acc.2 ++ [a])
    | .error _ => (acc.1 + 1, acc.2)) (0, [])

/-! Typed messages.  Well-typed message shapes for the five known event
types and the unrecognized fallback, with their JSON encodings; these are
the inputs on which totality of normalization is settled. -/

/-- One commit of a push payload, with its three path lists. -/
structure CommitMsg where
  added : List String
  modified : List String
  removed : List String

/-- One entry of the pull-requests array of a check payload. -/
structure PrRef where
  number : String
  ref : String
  sha : String

/-- The fields common to every message: action, delivery id and the
repository identity. -/
structure MsgCommon where
  action : String
  delivery_id : String
  owner : String
  name : String

/-- A well-typed inbound message. -/
inductive TypedMsg where
  | push (c : MsgCommon) (ref after : String) (commits : List CommitMsg)
  | mergeGroup (c : MsgCommon) (head_ref base_ref head_sha base_sha mgid : String)
  | pullRequest (c : MsgCommon) (head_ref head_sha base_ref base_sha number prid : String)
      (merged : Bool)
  | check (suite : Bool) (c : MsgCommon) (head_branch head_sha csid : String)
      (prs : List PrRef)
  | other (event_type : String) (c : MsgCommon)

/-- The event type tag a typed message encodes to. -/
def TypedMsg.eventType : TypedMsg → String
  | .push .. => "push"
  | .mergeGroup .. => "merge_group"
  | .pullRequest .. => "pull_request"
  | .check true .. => "check_suite"
  | .check false .. => "check_run"
  | .other et _ => et

/-- JSON encoding of the repository object of a payload. -/
def encodeRepo (c : MsgCommon) : String × J :=
  ("repository", .obj [("owner", .obj [("login", .str c.owner)]), ("name", .str c.name)])

/-- JSON encoding of one commit. -/
def encodeCommit (cm : CommitMsg) : J :=
  .obj [("added", .arr (cm.added.map .str)),
        ("modified", .arr (cm.modified.map .str)),
        ("removed", .arr (cm.removed.map .str))]

/-- JSON encoding of one pull-request reference of a check payload. -/
def encodePrRef (p : PrRef) : J :=
  .obj [("number", .str p.number),
        ("base", .obj [("ref", .str p.ref), ("sha", .str p.sha)])]

/-- JSON encoding of a typed message into the raw record shape the
normalizer consumes. -/
def encodeMsg : TypedMsg → J
  | .push c ref after commits =>
    .obj [("event_type", .str "push"), ("action", .str c.action),
          ("delivery_id", .str c.delivery_id),
          ("payload", .obj [encodeRepo c,
            ("ref", .str ref), ("after", .str after),
            ("commits", .arr (commits.map encodeCommit))])]
  | .mergeGroup c hr br hs bs mgid =>
    .obj [("event_type", .str "merge_group"), ("action", .str c.action),
          ("delivery_id", .str c.delivery_id),
          ("payload", .obj [encodeRepo c,
            ("merge_group", .obj [("id", .str mgid),
              ("head_ref", .str hr), ("base_ref", .str br),
              ("head_sha", .str hs), ("base_sha", .str bs)])])]
  | .pullRequest c hr hs br bs number prid merged =>
    .obj [("event_type", .str "pull_request"), ("action", .str c.action),
          ("delivery_id", .str c.delivery_id),
          ("payload", .obj [encodeRepo c,
            ("pull_request", .obj [("id", .str prid), ("number", .str number),
              ("merged", .bool merged),
              ("head", .obj [("ref", .str hr), ("sha", .str hs)]),
              ("base", .obj [("ref", .str br), ("sha", .str bs)])])])]
  | .check suite c hb hs csid prs =>
    .obj [("event_type", .str (if suite then "check_suite" else "check_run")),
          ("action", .str c.action), ("delivery_id", .str c.delivery_id),
          ("payload", .obj [encodeRepo c,
            (if suite then "check_suite" else "check_run",
             .obj [("id", .str csid), ("head_branch", .str hb),
                   ("head_sha", .str hs),
                   ("pull_requests", .arr (prs.map encodePrRef))])])]
  | .other et c =>
    .obj [("event_type", .str et), ("action", .str c.action),
          ("delivery_id", .str c.delivery_id),
          ("payload", .obj [encodeRepo c])]

/-- Typed-level changed-files accumulation, the union of the three path
lists of every commit in order. -/
def changedOfCommits (commits : List CommitMsg) (acc : List String) : List String :=
  commits.foldl
    (fun acc cm => setUpdate (setUpdate (setUpdate acc cm.added) cm.modified) cm.removed)
    acc

/-- First pull-request number of a check payload, or the empty default. -/
def pr0Number : List PrRef → String
  | [] => ""
  | p :: _ => p.number

/-- First pull-request base ref of a check payload, or the empty default. -/
def pr0Ref : List PrRef → String
  | [] => ""
  | p :: _ => p.ref

/-- First pull-request base sha of a check payload, or the empty default. -/
def pr0Sha : List PrRef → String
  | [] => ""
  | p :: _ => p.sha

/-! Sample events used by witnesses and counterexamples. -/

/-- A pull-request event with distinct head and base branches. -/
def evPR : NormalizedEvent :=
  ⟨"pull_request", "opened", "d1", ⟨"folio-org", "app-acquisitions"⟩,
   "feature/x", "main", "h1", "b1", "42", "false", "false", "7", "", none⟩

/-- The same pull-request event with a different head branch. -/
def evPR2 : NormalizedEvent :=
  ⟨"pull_request", "opened", "d1", ⟨"folio-org", "app-acquisitions"⟩,
   "release/z", "main", "h1", "b1", "42", "false", "false", "7", "", none⟩

/-- A pull-request event whose base branch is empty while the head branch
would match; exhibits the absence of a head fallback. -/
def evPRemptyBase : NormalizedEvent :=
  ⟨"pull_request", "opened", "d3", ⟨"o", "r"⟩,
   "main", "", "h", "b", "1", "false", "false", "", "", none⟩

/-- A push event carrying a changed-files list. -/
def evPush : NormalizedEvent :=
  ⟨"push", "", "d2", ⟨"folio-org", "mod-users"⟩,
   "master", "", "h2", "", "", "false", "false", "", "", some ["src/a.yml"]⟩

/-- Occurrence of pat as a contiguous sublist. -/
def subOccurs (pat : List Char) : List Char → Bool
  | [] => pat.isEmpty
  | c :: rest => pat.isPrefixOf (c :: rest) || subOccurs pat rest

/-- Stripping of only a leading "refs/heads/" prefix, as the claim words
it (a spec-side definition for comparison with the embedded helper). -/
def stripLeadingRefsHeads (s : String) : String :=
  if "refs/heads/".toList.isPrefixOf s.toList then
    ⟨s.toList.drop "refs/heads/".toList.length⟩
  else s

/-- A repository pattern matching everything, with one workflow. -/
def rpAll : RepoPattern := ⟨"*", "*", .str "*", [], [J.str "wf-a"]⟩

/-- A configuration whose one rule carries an empty actions list. -/
def cfgActionsEmpty : Config := ⟨[⟨"pull_request", some [], [rpAll]⟩]⟩

/-- A configuration with one push rule constrained by file patterns. -/
def cfgPush : Config :=
  ⟨[⟨"push", none, [⟨"*", "mod-*", .str "mas*", ["src/*"], [J.str "wf-b"]⟩]⟩]⟩

/-- The always-failing request oracle: every request raises inside the
collaborator (which catches the error and returns false). -/
def netFail : J → J → String → J → J → Bool := fun _ _ _ _ _ => false

/-- A well-formed workflow spec with all required keys. -/
def wfEx : J :=
  J.obj [("owner", .str "o"), ("repository", .str "r"),
         ("workflow_file", .str "ci.yml")]

/-! Evaluation lemmas for the Python-idiom helpers. -/

@[simp]
lemma pyOr_str_empty (s : String) : pyOr (J.str s) (J.str "") = J.str s := by
  by_cases h : s = "" <;> simp [pyOr, truthy, h]

@[simp]
lemma pyStrOr_str (s : String) : pyStrOr (J.str s) = .ok s := rfl

@[simp]
lemma pyGetD_obj (kvs : List (String × J)) (k : String) (d : J) :
    pyGetD (J.obj kvs) k d = .ok ((kvs.lookup k).getD d) := rfl

@[simp]
lemma pyGet_obj (kvs : List (String × J)) (k : String) :
    pyGet (J.obj kvs) k = .ok ((kvs.lookup k).getD .null) := rfl

@[simp]
lemma asStrList_map_str (l : List String) :
    asStrList (J.arr (l.map J.str)) = .ok l := by
  induction l with
  | nil => rfl
  | cons x xs ih =>
    simp only [asStrList, List.map_cons, List.mapM_cons] at ih ⊢
    simp_all [bind, Except.bind, pure, Except.pure]

@[simp]
lemma updateChangedWithCommit_encode (changed : List String) (cm : CommitMsg) :
    updateChangedWithCommit changed (encodeCommit cm) =
      .ok (setUpdate (setUpdate (setUpdate changed cm.added) cm.modified) cm.removed) := by
  simp [updateChangedWithCommit, encodeCommit, bind, Except.bind, List.lookup, pure,
        Except.pure]

lemma foldlM_updateChanged (commits : List CommitMsg) (acc : List String) :
    (commits.map encodeCommit).foldlM updateChangedWithCommit acc =
      Except.ok (changedOfCommits commits acc) := by
  induction commits generalizing acc with
  | nil => rfl
  | cons cm rest ih =>
    simp only [changedOfCommits, List.map_cons, List.foldlM_cons,
      updateChangedWithCommit_encode, List.foldl_cons, bind, Except.bind]
    exact ih _

@[simp]
lemma pyStrOr_if_empty (s : String) :
    pyStrOr (if s = "" then J.str "" else J.str s) = .ok s := by
  by_cases h : s = "" <;> simp [h]

@[simp]
lemma get_changed_files_encode (v : J) (ref after : String)
    (commits : List CommitMsg) :
    get_changed_files_from_push
      (J.obj [("repository", v), ("ref", .str ref), ("after", .str after),
              ("commits", .arr (commits.map encodeCommit))]) =
      .ok (changedOfCommits commits []) := by
  simp [get_changed_files_from_push, List.lookup, bind, Except.bind,
        foldlM_updateChanged]

/-! Explicit forms of normalization on typed messages. -/

lemma normalize_encode_push (c : MsgCommon) (ref after : String)
    (commits : List CommitMsg) :
    normalize_event (encodeMsg (.push c ref after commits)) =
      .ok { event_type := "push", action := c.action, delivery_id := c.delivery_id,
            repo := { owner := c.owner, name := c.name },
            head_branch := stripRef ref, base_branch := "",
            head_sha := after, base_sha := "",
            pr_number := "", merged := "false", is_merge_group := "false",
            event_id := "", check_suite_id := "",
            changed_files := some (changedOfCommits commits []) } := by
  simp [normalize_event, encodeMsg, encodeRepo, normalizePush, List.lookup,
        bind, Except.bind, pure, Except.pure, pyOr, truthy,
        get_changed_files_encode]

@[simp]
lemma pyStr_str (s : String) : pyStr (J.str s) = s := rfl

@[simp]
lemma pyStr_if_empty (s : String) :
    pyStr (if s = "" then J.str "" else J.str s) = s := by
  by_cases h : s = "" <;> simp [h]

lemma normalize_encode_merge_group (c : MsgCommon)
    (hr br hs bs mgid : String) :
    normalize_event (encodeMsg (.mergeGroup c hr br hs bs mgid)) =
      .ok { event_type := "merge_group", action := c.action,
            delivery_id := c.delivery_id,
            repo := { owner := c.owner, name := c.name },
            head_branch := stripRef hr, base_branch := stripRef br,
            head_sha := hs, base_sha := bs,
            pr_number := "", merged := "false", is_merge_group := "true",
            event_id := mgid, check_suite_id := mgid,
            changed_files := none } := by
  simp [normalize_event, encodeMsg, encodeRepo, normalizeMergeGroup, List.lookup,
        bind, Except.bind, pure, Except.pure, pyOr, truthy]

lemma normalize_encode_pull_request (c : MsgCommon)
    (hr hs br bs number prid : String) (merged : Bool) :
    normalize_event (encodeMsg (.pullRequest c hr hs br bs number prid merged)) =
      .ok { event_type := "pull_request", action := c.action,
            delivery_id := c.delivery_id,
            repo := { owner := c.owner, name := c.name },
            head_branch := hr, base_branch := br,
            head_sha := hs, base_sha := bs,
            pr_number := number,
            merged := if merged then "true" else "false",
            is_merge_group := "false",
            event_id := prid, check_suite_id := "",
            changed_files := none } := by
  simp [normalize_event, encodeMsg, encodeRepo, normalizePullRequest, List.lookup,
        bind, Except.bind, pure, Except.pure, pyOr, truthy]

lemma normalize_encode_check (suite : Bool) (c : MsgCommon)
    (hb hs csid : String) (prs : List PrRef) :
    normalize_event (encodeMsg (.check suite c hb hs csid prs)) =
      .ok { event_type := if suite then "check_suite" else "check_run",
            action := c.action, delivery_id := c.delivery_id,
            repo := { owner := c.owner, name := c.name },
            head_branch := hb, base_branch := pr0Ref prs,
            head_sha := hs, base_sha := pr0Sha prs,
            pr_number := pr0Number prs, merged := "false",
            is_merge_group := "false",
            event_id := csid, check_suite_id := csid,
            changed_files := none } := by
  cases suite <;> cases prs <;>
    simp [normalize_event, encodeMsg, encodeRepo, encodePrRef, normalizeCheck,
          List.lookup, bind, Except.bind, pure, Except.pure, pyOr, truthy,
          pr0Number, pr0Ref, pr0Sha]

lemma normalize_encode_other (et : String) (c : MsgCommon)
    (h1 : et ≠ "push") (h2 : et ≠ "merge_group") (h3 : et ≠ "pull_request")
    (h4 : et ≠ "check_suite") (h5 : et ≠ "check_run") :
    normalize_event (encodeMsg (.other et c)) =
      .ok { event_type := et, action := c.action, delivery_id := c.delivery_id,
            repo := { owner := c.owner, name := c.name },
            head_branch := "", base_branch := "", head_sha := "", base_sha := "",
            pr_number := "", merged := "false", is_merge_group := "false",
            event_id := "", check_suite_id := "",
            changed_files := none } := by
  simp [normalize_event, encodeMsg, encodeRepo, List.lookup,
        bind, Except.bind, pure, Except.pure, pyOr, truthy, h1, h2, h3, h4, h5]

/-! Claim theorems: branch matching. -/

/-- C10: for every normalized event, a branch constraint given as an empty
list matches nothing, while an absent (null) constraint or the string star
matches every branch; the empty pattern list silently disables the
repository pattern rather than acting as a wildcard. -/
theorem c10_empty_pattern_list_matches_nothing (ev : NormalizedEvent) :
    branch_matches_for_mapping ev (.list []) = false ∧
    branch_matches_for_mapping ev .null = true ∧
    branch_matches_for_mapping ev (.str "*") = true :=
  ⟨rfl, rfl, rfl⟩

theorem c10_witness :
    branch_matches_for_mapping evPR (BranchesCfg.list []) = false ∧
    branch_matches_for_mapping evPR BranchesCfg.null = true ∧
    branch_matches_for_mapping evPR (BranchesCfg.str "*") = true :=
  c10_empty_pattern_list_matches_nothing evPR

/-- C2: a structured (dict) branch constraint matches exactly when the
event is not a push, at least one of the base and head pattern lists is
present and non-empty, a present non-empty base list has a base-branch
match and a present non-empty head list has a head-branch match; an empty
structured constraint matches nothing and a push event never matches a
structured constraint (the embedding is a total function, so no exception
is raised in either case). -/
theorem c2_structured_branch_constraint (ev : NormalizedEvent)
    (base head : Option (List String)) :
    branch_matches_for_mapping ev (.dict base head) = true ↔
      (ev.event_type ≠ "push" ∧
       (optTruthy base = true ∨ optTruthy head = true) ∧
       (optTruthy base = true → anyMatch ev.base_branch (base.getD []) = true) ∧
       (optTruthy head = true → anyMatch ev.head_branch (head.getD []) = true)) := by
  simp only [branch_matches_for_mapping]
  by_cases hp : ev.event_type = "push"
  · simp [hp]
  · simp only [if_neg hp]
    by_cases hb : optTruthy base <;> by_cases hh : optTruthy head <;>
      by_cases hmb : anyMatch ev.base_branch (base.getD []) <;>
      by_cases hmh : anyMatch ev.head_branch (head.getD []) <;>
      simp_all

theorem c2_witness :
    branch_matches_for_mapping evPR (.dict (some ["main"]) none) = true ↔
      (evPR.event_type ≠ "push" ∧
       (optTruthy (some ["main"]) = true ∨ optTruthy none = true) ∧
       (optTruthy (some ["main"]) = true →
         anyMatch evPR.base_branch ((some ["main"]).getD []) = true) ∧
       (optTruthy (none : Option (List String)) = true →
         anyMatch evPR.head_branch ((none : Option (List String)).getD []) = true)) :=
  c2_structured_branch_constraint evPR (some ["main"]) none

/-- C3: for single-string and list branch constraints the branch compared
is exactly the base branch for pull-request events and exactly the head
branch for every other event type: the match outcome is invariant under
changes of every other field, and a pull-request event with an empty base
branch is matched as the empty string even when the head branch would
match, so there is no fallback. -/
theorem c3_simple_constraint_primary_branch :
    (∀ (ev ev2 : NormalizedEvent) (cfg : BranchesCfg),
        ((∃ s, cfg = .str s) ∨ (∃ ps, cfg = .list ps)) →
        ev.event_type = "pull_request" → ev2.event_type = "pull_request" →
        ev.base_branch = ev2.base_branch →
        branch_matches_for_mapping ev cfg = branch_matches_for_mapping ev2 cfg)
    ∧ (∀ (ev ev2 : NormalizedEvent) (cfg : BranchesCfg),
        ((∃ s, cfg = .str s) ∨ (∃ ps, cfg = .list ps)) →
        ev.event_type ≠ "pull_request" → ev2.event_type ≠ "pull_request" →
        ev.head_branch = ev2.head_branch →
        branch_matches_for_mapping ev cfg = branch_matches_for_mapping ev2 cfg)
    ∧ branch_matches_for_mapping evPRemptyBase (.str "main") = false
    ∧ branch_matches_for_mapping evPRemptyBase (.list ["main"]) = false := by
  refine ⟨?_, ?_, by decide, by decide⟩
  · rintro ev ev2 cfg (⟨s, rfl⟩ | ⟨ps, rfl⟩) h1 h2 hbb <;>
      simp [branch_matches_for_mapping, primaryBranchForSimpleMatch, h1, h2, hbb]
  · rintro ev ev2 cfg (⟨s, rfl⟩ | ⟨ps, rfl⟩) h1 h2 hhb <;>
      simp [branch_matches_for_mapping, primaryBranchForSimpleMatch, h1, h2, hhb]

theorem c3_witness :
    branch_matches_for_mapping evPR (BranchesCfg.list ["rel-*"]) =
      branch_matches_for_mapping evPR2 (BranchesCfg.list ["rel-*"]) :=
  c3_simple_constraint_primary_branch.1 evPR evPR2 (BranchesCfg.list ["rel-*"])
    (Or.inr ⟨["rel-*"], rfl⟩) rfl rfl rfl

/-! Claim theorems: the resolver. -/

lemma foldl_if_filter {α β : Type} (p : α → Bool) (g : α → List β)
    (l : List α) (acc : List β) :
    l.foldl (fun ws x => if p x then ws ++ g x else ws) acc
      = acc ++ (l.filter p).flatMap g := by
  induction l generalizing acc with
  | nil => simp
  | cons a l ih =>
    by_cases h : p a <;> simp [h, ih, List.filter_cons, List.append_assoc]

lemma flatMap_if_filter {α β : Type} (p : α → Bool) (g : α → List β) (l : List α) :
    (l.flatMap fun x => if p x then g x else []) = (l.filter p).flatMap g := by
  induction l with
  | nil => rfl
  | cons a l ih => by_cases h : p a <;> simp [h, ih, List.filter_cons]

lemma foldl_append_eq {α β : Type} (g : α → List β) (l : List α) (acc : List β) :
    l.foldl (fun ws x => ws ++ g x) acc = acc ++ l.flatMap g := by
  induction l generalizing acc with
  | nil => simp
  | cons a l ih => simp [ih, List.append_assoc]

lemma pattern_step_eq (ev : NormalizedEvent)
    (hp : ev.event_type = "push" → ev.changed_files.isSome = true)
    (ws : List J) (rp : RepoPattern) :
    (if !pyMatch ev.repo.owner rp.owner then ws
     else if !pyMatch ev.repo.name rp.repository then ws
     else if !branch_matches_for_mapping ev rp.branches then ws
     else if ev.event_type = "push" && ev.changed_files.isSome &&
             !matches_file_patterns (ev.changed_files.getD []) rp.file_patterns then ws
     else ws ++ rp.workflows)
    = if patternApplies ev rp then ws ++ rp.workflows else ws := by
  simp only [patternApplies]
  by_cases h1 : pyMatch ev.repo.owner rp.owner <;>
    by_cases h2 : pyMatch ev.repo.name rp.repository <;>
    by_cases h3 : branch_matches_for_mapping ev rp.branches <;>
    simp [h1, h2, h3]
  by_cases hpush : ev.event_type = "push"
  · have hsome := hp hpush
    by_cases hm : matches_file_patterns (ev.changed_files.getD []) rp.file_patterns <;>
      simp [hpush, hsome, hm]
  · simp [hpush]

lemma ruleAppliesAmended_eq (ev : NormalizedEvent) (m : MappingRule) :
    ruleAppliesAmended ev m
      = ((m.event_type == ev.event_type) && !actionsSkip m.actions ev.action) := by
  cases h : m.actions with
  | none => simp [ruleAppliesAmended, actionsSkip, h]
  | some l =>
    simp only [ruleAppliesAmended, actionsSkip, h]
    cases h1 : l.isEmpty <;> cases h2 : l.contains ev.action <;> simp [h1, h2]

lemma rule_step_eq (ev : NormalizedEvent)
    (hp : ev.event_type = "push" → ev.changed_files.isSome = true)
    (acc : List J) (m : MappingRule) :
    (if m.event_type != ev.event_type then acc
     else if actionsSkip m.actions ev.action then acc
     else m.repository_patterns.foldl (fun ws rp =>
       if !pyMatch ev.repo.owner rp.owner then ws
       else if !pyMatch ev.repo.name rp.repository then ws
       else if !branch_matches_for_mapping ev rp.branches then ws
       else if ev.event_type = "push" && ev.changed_files.isSome &&
               !matches_file_patterns (ev.changed_files.getD []) rp.file_patterns then ws
       else ws ++ rp.workflows) acc)
    = acc ++ (if ruleAppliesAmended ev m then
        (m.repository_patterns.filter (patternApplies ev)).flatMap
          (fun rp => rp.workflows)
      else []) := by
  have hbody : m.repository_patterns.foldl (fun ws rp =>
      if !pyMatch ev.repo.owner rp.owner then ws
      else if !pyMatch ev.repo.name rp.repository then ws
      else if !branch_matches_for_mapping ev rp.branches then ws
      else if ev.event_type = "push" && ev.changed_files.isSome &&
              !matches_file_patterns (ev.changed_files.getD []) rp.file_patterns then ws
      else ws ++ rp.workflows) acc
      = m.repository_patterns.foldl (fun ws rp =>
          if patternApplies ev rp then ws ++ rp.workflows else ws) acc :=
    List.foldl_ext _ _ acc (fun ws rp _ => pattern_step_eq ev hp ws rp)
  rw [ruleAppliesAmended_eq, hbody, foldl_if_filter]
  by_cases ht : m.event_type == ev.event_type
  · by_cases ha : actionsSkip m.actions ev.action <;> simp [ht, ha, bne]
  · simp [ht, bne]

/-- C1 amended: for every normalized event whose push events carry a
changed-files list, the resolver returns exactly the concatenation, in
configuration order, of the workflows of every repository pattern of every
rule that applies, where a rule applies when its event type equals the
event type and its actions set is absent, empty, or contains the action;
no deduplication is performed. -/
theorem c1_resolver_union (ev : NormalizedEvent) (config : Config)
    (hp : ev.event_type = "push" → ev.changed_files.isSome = true) :
    find_matching_workflows ev config = resolveSpecAmended ev config := by
  unfold find_matching_workflows resolveSpecAmended
  have h1 : config.event_mappings.foldl (fun workflows mapping =>
      if mapping.event_type != ev.event_type then workflows
      else if actionsSkip mapping.actions ev.action then workflows
      else mapping.repository_patterns.foldl (fun ws rp =>
        if !pyMatch ev.repo.owner rp.owner then ws
        else if !pyMatch ev.repo.name rp.repository then ws
        else if !branch_matches_for_mapping ev rp.branches then ws
        else if ev.event_type = "push" && ev.changed_files.isSome &&
                !matches_file_patterns (ev.changed_files.getD []) rp.file_patterns then ws
        else ws ++ rp.workflows) workflows) []
      = config.event_mappings.foldl (fun workflows mapping =>
          workflows ++ (if ruleAppliesAmended ev mapping then
            (mapping.repository_patterns.filter (patternApplies ev)).flatMap
              (fun rp => rp.workflows)
          else [])) [] :=
    List.foldl_ext _ _ [] (fun acc m _ => rule_step_eq ev hp acc m)
  rw [h1, foldl_append_eq, flatMap_if_filter]
  simp

/-! String replacement lemmas. -/

lemma replaceFuel_not_occurs (pat rep : List Char) (f : Nat) (s : List Char)
    (h : subOccurs pat s = false) : replaceFuel pat rep f s = s := by
  induction f generalizing s with
  | zero => cases s <;> rfl
  | succ f ih =>
    cases s with
    | nil => rfl
    | cons c rest =>
      simp only [subOccurs, Bool.or_eq_false_iff] at h
      simp only [replaceFuel, h.1, Bool.and_false, if_false]
      exact congrArg (c :: ·) (ih rest h.2)

lemma replaceList_not_occurs (pat rep s : List Char)
    (h : subOccurs pat s = false) : replaceList pat rep s = s :=
  replaceFuel_not_occurs pat rep s.length s h

lemma pyReplace_not_occurs (s pat rep : String)
    (h : subOccurs pat.toList s.toList = false) : pyReplace s pat rep = s := by
  unfold pyReplace
  rw [replaceList_not_occurs _ _ _ h]
  rfl

lemma replaceList_append_eats (pat rep s : List Char) (hne : pat ≠ [])
    (h : subOccurs pat s = false) : replaceList pat rep (pat ++ s) = rep ++ s := by
  cases pat with
  | nil => exact absurd rfl hne
  | cons p pt =>
    have hpre : (p :: pt).isPrefixOf ((p :: pt) ++ s) = true := by
      rw [List.isPrefixOf_iff_prefix]
      exact (p :: pt).prefix_append s
    unfold replaceList
    simp only [List.cons_append, List.length_cons]
    simp only [replaceFuel, List.isEmpty_cons, Bool.not_false, Bool.true_and]
    rw [← List.cons_append, hpre]
    simp only [if_true]
    rw [List.drop_left, replaceFuel_not_occurs _ _ _ _ h]

lemma stripRef_not_occurs (s : String)
    (h : subOccurs "refs/heads/".toList s.toList = false) : stripRef s = s :=
  pyReplace_not_occurs s _ _ h

lemma stripRef_strips_leading (s : String)
    (h : subOccurs "refs/heads/".toList s.toList = false) :
    stripRef ("refs/heads/" ++ s) = s := by
  unfold stripRef pyReplace
  have hl : ("refs/heads/" ++ s).toList = "refs/heads/".toList ++ s.toList := by
    simp [String.toList, String.data_append]
  rw [hl, replaceList_append_eats _ _ _ (by decide) h]
  rfl

lemma subOccurs_of_isPrefixOf (pat s : List Char)
    (h : pat.isPrefixOf s = true) : subOccurs pat s = true := by
  cases s with
  | nil =>
    cases pat with
    | nil => rfl
    | cons p pt => simp [List.isPrefixOf] at h
  | cons c rest => simp [subOccurs, h]

/-- C6 counterexample: on a push payload whose ref contains the string
"refs/heads/" twice, normalization removes both occurrences (str.replace
semantics), while the claimed leading-prefix strip would remove only the
first; the two results differ. -/
theorem c6_counterexample :
    (normalize_event (encodeMsg (.push ⟨"", "d", "o", "r"⟩
        "refs/heads/refs/heads/main" "s" []))).map (fun ev => ev.head_branch)
      = .ok "main" ∧
    stripLeadingRefsHeads "refs/heads/refs/heads/main" = "refs/heads/main" ∧
    ("main" : String) ≠ "refs/heads/main" :=
  ⟨rfl, by decide, by decide⟩

/-- C6 amended: for every push payload the head branch is the ref with
every occurrence of "refs/heads/" removed, and the same rule applies to
the merge-group head and base refs; on a ref in which "refs/heads/"
either does not occur at all or occurs only as the leading prefix (the
normal case) this coincides with stripping the leading prefix. -/
theorem c6_strip_ref (c : MsgCommon) (ref after hr br hs bs mgid : String)
    (commits : List CommitMsg) :
    ((normalize_event (encodeMsg (.push c ref after commits))).map
        (fun ev => ev.head_branch) = .ok (stripRef ref))
    ∧ ((normalize_event (encodeMsg (.mergeGroup c hr br hs bs mgid))).map
        (fun ev => (ev.head_branch, ev.base_branch))
        = .ok (stripRef hr, stripRef br))
    ∧ (∀ s : String, subOccurs "refs/heads/".toList s.toList = false →
        stripRef s = stripLeadingRefsHeads s)
    ∧ (∀ s : String, subOccurs "refs/heads/".toList s.toList = false →
        stripRef ("refs/heads/" ++ s) = stripLeadingRefsHeads ("refs/heads/" ++ s)) := by
  refine ⟨?_, ?_, ?_, ?_⟩
  · rw [normalize_encode_push]; rfl
  · rw [normalize_encode_merge_group]; rfl
  · intro s h
    rw [stripRef_not_occurs s h]
    unfold stripLeadingRefsHeads
    have hnp : "refs/heads/".toList.isPrefixOf s.toList = false := by
      cases hip : "refs/heads/".toList.isPrefixOf s.toList with
      | false => rfl
      | true => rw [subOccurs_of_isPrefixOf _ _ hip] at h; cases h
    rw [hnp]
    simp
  · intro s h
    rw [stripRef_strips_leading s h]
    unfold stripLeadingRefsHeads
    have hl : ("refs/heads/" ++ s).toList = "refs/heads/".toList ++ s.toList := by
      simp [String.toList, String.data_append]
    have hip : "refs/heads/".toList.isPrefixOf ("refs/heads/" ++ s).toList = true := by
      rw [hl, List.isPrefixOf_iff_prefix]
      exact List.prefix_append _ _
    rw [hip]
    simp only [if_true, hl, List.drop_left]
    rfl

theorem c6_witness :
    stripRef "main" = stripLeadingRefsHeads "main" :=
  (c6_strip_ref ⟨"", "", "", ""⟩ "" "" "" "" "" "" "" []).2.2.1 "main" (by decide)

/-- C7 counterexample: for a push message the merged field, which the push
normalizer does not set, is the dataclass default "false", not the empty
string the claim asserts. -/
theorem c7_counterexample :
    (normalize_event (encodeMsg (.push ⟨"", "d", "o", "r"⟩ "refs/heads/m" "s" []))).map
        (fun ev => ev.merged) = .ok "false" ∧
    ("false" : String) ≠ "" :=
  ⟨rfl, by decide⟩

/-- C7 amended: every scalar field not set by the event-type normalizer is
its dataclass default: the empty string for all fields except merged and
is-merge-group, whose default is "false"; in particular the pr number is
empty for push and merge-group messages, and an unrecognized event type
leaves every optional field at its default. -/
theorem c7_field_defaults (c : MsgCommon)
    (ref after hr br hs bs mgid et hb hsc csid : String) (suite : Bool)
    (commits : List CommitMsg)
    (h1 : et ≠ "push") (h2 : et ≠ "merge_group") (h3 : et ≠ "pull_request")
    (h4 : et ≠ "check_suite") (h5 : et ≠ "check_run") :
    ((normalize_event (encodeMsg (.push c ref after commits))).map
        (fun ev => (ev.pr_number, ev.base_branch, ev.base_sha, ev.event_id,
                    ev.check_suite_id, ev.merged, ev.is_merge_group))
      = .ok ("", "", "", "", "", "false", "false"))
    ∧ ((normalize_event (encodeMsg (.mergeGroup c hr br hs bs mgid))).map
        (fun ev => (ev.pr_number, ev.merged, ev.changed_files))
      = .ok ("", "false", none))
    ∧ ((normalize_event (encodeMsg (.check suite c hb hsc csid []))).map
        (fun ev => (ev.pr_number, ev.base_branch, ev.base_sha, ev.merged,
                    ev.is_merge_group, ev.changed_files))
      = .ok ("", "", "", "false", "false", none))
    ∧ ((normalize_event (encodeMsg (.other et c))).map
        (fun ev => (ev.head_branch, ev.base_branch, ev.head_sha, ev.base_sha,
                    ev.pr_number, ev.merged, ev.is_merge_group, ev.event_id,
                    ev.check_suite_id, ev.changed_files))
      = .ok ("", "", "", "", "", "false", "false", "", "", none)) := by
  refine ⟨?_, ?_, ?_, ?_⟩
  · rw [normalize_encode_push]; rfl
  · rw [normalize_encode_merge_group]; rfl
  · rw [normalize_encode_check]; rfl
  · rw [normalize_encode_other et c h1 h2 h3 h4 h5]; rfl

theorem c7_witness :
    (normalize_event (encodeMsg (.other "ping" ⟨"", "d", "o", "r"⟩))).map
        (fun ev => (ev.head_branch, ev.base_branch, ev.head_sha, ev.base_sha,
                    ev.pr_number, ev.merged, ev.is_merge_group, ev.event_id,
                    ev.check_suite_id, ev.changed_files))
      = .ok ("", "", "", "", "", "false", "false", "", "", none) :=
  (c7_field_defaults ⟨"", "d", "o", "r"⟩ "" "" "" "" "" "" "" "ping" "" "" "" true []
    (by decide) (by decide) (by decide) (by decide) (by decide)).2.2.2

/-! Claim theorems: totality of normalization. -/

lemma exists_ok_of_isOk {e : Except String NormalizedEvent}
    (h : e.isOk = true) : ∃ ev, e = .ok ev := by
  cases e with
  | ok v => exact ⟨v, rfl⟩
  | error msg => simp [Except.isOk, Except.toBool] at h

lemma normalize_encode_other_total (et : String) (c : MsgCommon) :
    ∃ ev, normalize_event (encodeMsg (.other et c)) = .ok ev := by
  by_cases h1 : et = "push"
  · subst h1
    apply exists_ok_of_isOk
    simp [normalize_event, encodeMsg, encodeRepo, normalizePush,
          get_changed_files_from_push, List.lookup, bind, Except.bind, pure,
          Except.pure, pyOr, truthy, Except.isOk, Except.toBool]
  · by_cases h2 : et = "merge_group"
    · subst h2
      apply exists_ok_of_isOk
      simp [normalize_event, encodeMsg, encodeRepo, normalizeMergeGroup,
            List.lookup, bind, Except.bind, pure, Except.pure, pyOr, truthy,
            Except.isOk, Except.toBool]
    · by_cases h3 : et = "pull_request"
      · subst h3
        apply exists_ok_of_isOk
        simp [normalize_event, encodeMsg, encodeRepo, normalizePullRequest,
              List.lookup, bind, Except.bind, pure, Except.pure, pyOr, truthy,
              Except.isOk, Except.toBool]
      · by_cases h4 : et = "check_suite"
        · subst h4
          apply exists_ok_of_isOk
          simp [normalize_event, encodeMsg, encodeRepo, normalizeCheck,
                List.lookup, bind, Except.bind, pure, Except.pure, pyOr, truthy,
                Except.isOk, Except.toBool]
        · by_cases h5 : et = "check_run"
          · subst h5
            apply exists_ok_of_isOk
            simp [normalize_event, encodeMsg, encodeRepo, normalizeCheck,
                  List.lookup, bind, Except.bind, pure, Except.pure, pyOr, truthy,
                  Except.isOk, Except.toBool]
          · exact ⟨_, normalize_encode_other et c h1 h2 h3 h4 h5⟩

/-- C4 counterexample: a message whose payload field holds the truthy
non-mapping value "x" makes normalization raise (the source calls .get on
that value, an attribute error in Python, an error value here), so
normalization is not total on arbitrary JSON messages. -/
theorem c4_counterexample :
    normalize_event (J.obj [("payload", J.str "x")]) =
      .error "AttributeError: get on non-dict" := rfl

/-- C4 amended: normalization is total on every well-typed message: for
all five known event types with string fields, arbitrary commit path lists
and pull-request references, and for every unrecognized event type
(including a name colliding with a known type over a payload of a
different shape), it returns exactly one event and no error; a truthy
non-mapping value in a position read as a mapping (for example a string
payload) is the one way an error escapes. -/
theorem c4_normalization_total (m : TypedMsg) :
    ∃ ev, normalize_event (encodeMsg m) = .ok ev := by
  cases m with
  | push c ref after commits => exact ⟨_, normalize_encode_push c ref after commits⟩
  | mergeGroup c hr br hs bs mgid =>
    exact ⟨_, normalize_encode_merge_group c hr br hs bs mgid⟩
  | pullRequest c hr hs br bs number prid merged =>
    exact ⟨_, normalize_encode_pull_request c hr hs br bs number prid merged⟩
  | check suite c hb hs csid prs => exact ⟨_, normalize_encode_check suite c hb hs csid prs⟩
  | other et c => exact normalize_encode_other_total et c

theorem c4_witness :
    ∃ ev, normalize_event (encodeMsg (.pullRequest ⟨"opened", "d", "o", "r"⟩
        "feature/x" "h1" "main" "b1" "42" "7" false)) = .ok ev :=
  c4_normalization_total (.pullRequest ⟨"opened", "d", "o", "r"⟩
    "feature/x" "h1" "main" "b1" "42" "7" false)

/-! Claim theorems: changed files of a push. -/

lemma mem_setInsert (a x : String) (s : List String) :
    a ∈ setInsert s x ↔ a ∈ s ∨ a = x := by
  by_cases h : x ∈ s
  · simp only [setInsert, if_pos h]
    constructor
    · exact Or.inl
    · rintro (ha | rfl)
      · exact ha
      · exact h
  · simp [setInsert, if_neg h]

lemma nodup_setInsert (x : String) (s : List String) (h : s.Nodup) :
    (setInsert s x).Nodup := by
  by_cases hx : x ∈ s
  · simpa [setInsert, if_pos hx]
  · simp [setInsert, if_neg hx, List.nodup_append, h, hx]

lemma mem_setUpdate (a : String) (s xs : List String) :
    a ∈ setUpdate s xs ↔ a ∈ s ∨ a ∈ xs := by
  induction xs generalizing s with
  | nil => simp [setUpdate]
  | cons x xs ih =>
    simp only [setUpdate, List.foldl_cons] at ih ⊢
    rw [ih, mem_setInsert]
    simp [or_assoc, List.mem_cons]

lemma nodup_setUpdate (s xs : List String) (h : s.Nodup) :
    (setUpdate s xs).Nodup := by
  induction xs generalizing s with
  | nil => simpa [setUpdate]
  | cons x xs ih =>
    simp only [setUpdate, List.foldl_cons] at ih ⊢
    exact ih _ (nodup_setInsert x s h)

lemma mem_changedOfCommits (a : String) (commits : List CommitMsg)
    (acc : List String) :
    a ∈ changedOfCommits commits acc ↔
      a ∈ acc ∨ ∃ cm ∈ commits, a ∈ cm.added ∨ a ∈ cm.modified ∨ a ∈ cm.removed := by
  induction commits generalizing acc with
  | nil => simp [changedOfCommits]
  | cons cm rest ih =>
    simp only [changedOfCommits, List.foldl_cons] at ih ⊢
    rw [ih, mem_setUpdate, mem_setUpdate, mem_setUpdate,
        List.exists_mem_cons_iff]
    aesop

lemma nodup_changedOfCommits (commits : List CommitMsg) (acc : List String)
    (h : acc.Nodup) : (changedOfCommits commits acc).Nodup := by
  induction commits generalizing acc with
  | nil => simpa [changedOfCommits]
  | cons cm rest ih =>
    simp only [changedOfCommits, List.foldl_cons] at ih ⊢
    exact ih _ (nodup_setUpdate _ _ (nodup_setUpdate _ _ (nodup_setUpdate _ _ h)))

/-- C5: for every push payload the changed files of the normalized event
form a duplicate-free list whose members are exactly the union, over all
commits in the payload, of the added, modified and removed path lists. -/
theorem c5_changed_files_union (c : MsgCommon) (ref after : String)
    (commits : List CommitMsg) :
    ∃ l, (normalize_event (encodeMsg (.push c ref after commits))).map
        (fun ev => ev.changed_files) = .ok (some l)
      ∧ l.Nodup
      ∧ ∀ f, f ∈ l ↔
          ∃ cm ∈ commits, f ∈ cm.added ∨ f ∈ cm.modified ∨ f ∈ cm.removed := by
  refine ⟨changedOfCommits commits [], ?_, ?_, ?_⟩
  · rw [normalize_encode_push]; rfl
  · exact nodup_changedOfCommits commits [] List.nodup_nil
  · intro f
    rw [mem_changedOfCommits]
    simp

theorem c5_witness :
    ∃ l, (normalize_event (encodeMsg (.push ⟨"", "d", "o", "r"⟩ "refs/heads/m" "s"
        [⟨["a"], ["b", "c"], ["d"]⟩, ⟨[], ["e", "a"], []⟩]))).map
        (fun ev => ev.changed_files) = .ok (some l)
      ∧ l.Nodup
      ∧ ∀ f, f ∈ l ↔
          ∃ cm ∈ ([⟨["a"], ["b", "c"], ["d"]⟩, ⟨[], ["e", "a"], []⟩] : List CommitMsg),
            f ∈ cm.added ∨ f ∈ cm.modified ∨ f ∈ cm.removed :=
  c5_changed_files_union ⟨"", "d", "o", "r"⟩ "refs/heads/m" "s"
    [⟨["a"], ["b", "c"], ["d"]⟩, ⟨[], ["e", "a"], []⟩]

/-! Claim theorems: the resolver counterexample and witness. -/

/-- C1 counterexample: a mapping rule with an actions value that is present
but empty is applied by the resolver to an event whose action it does not
contain (Python truthiness reads an empty list as no constraint), while
the claim, which applies a rule only when its actions set is absent or
contains the action, yields nothing. -/
theorem c1_counterexample :
    find_matching_workflows evPR cfgActionsEmpty = [J.str "wf-a"] ∧
    resolveSpecLiteral evPR cfgActionsEmpty = [] := by
  constructor <;> rfl

theorem c1_witness :
    find_matching_workflows evPush cfgPush = resolveSpecAmended evPush cfgPush :=
  c1_resolver_union evPush cfgPush (fun _ => rfl)

/-! Claim theorems: template substitution. -/

lemma pyReplace_tok_not_occurs (s : String) (k v : String)
    (h : subOccurs (tok k).toList s.toList = false) :
    pyReplace s (tok k) v = s :=
  pyReplace_not_occurs s (tok k) v h

lemma substituteStr_not_occurs (s : String) (vmap : List (String × String))
    (h : ∀ kv ∈ vmap, subOccurs (tok kv.1).toList s.toList = false) :
    substituteStr s vmap = s := by
  induction vmap with
  | nil => rfl
  | cons kv rest ih =>
    unfold substituteStr
    rw [List.foldl_cons, pyReplace_tok_not_occurs s kv.1 kv.2
          (h kv (List.mem_cons_self kv rest))]
    exact ih (fun kv2 hm => h kv2 (List.mem_cons_of_mem kv hm))

lemma substituteKVs_map (kvs : List (String × J)) (vmap : List (String × String)) :
    substituteKVs kvs vmap = kvs.map (fun kv => (kv.1, substitute kv.2 vmap)) := by
  induction kvs with
  | nil => rfl
  | cons kv rest ih => simp [substituteKVs, ih]

lemma substituteArr_map (xs : List J) (vmap : List (String × String)) :
    substituteArr xs vmap = xs.map (fun v => substitute v vmap) := by
  induction xs with
  | nil => rfl
  | cons x rest ih => simp [substituteArr, ih]

/-- C8 counterexample: with the variable map binding a to the placeholder
of b (in that order) and b to B, the claim replaces the single occurrence
of the a placeholder in the input by the value of a, so its asserted
result is the placeholder of b; the source applies the replacements
sequentially, so the value of a is itself substituted further and the
result is B. -/
theorem c8_counterexample :
    substitute (.str "{a}") [("a", "{b}"), ("b", "B")] = .str "B" ∧
    ("B" : String) ≠ "{b}" := by
  constructor
  · simp only [substitute]
    exact congrArg J.str (by decide)
  · decide

/-- C8 amended: template substitution is total and structure-preserving:
dict and list nodes recurse with keys and order preserved and non-string
non-container leaves pass through unchanged; on string leaves the
variables are applied sequentially in map order by textual replacement of
every occurrence of the placeholder (so a variable value containing the
placeholder of a variable later in the map is substituted further rather
than left verbatim); a string in which no placeholder of any variable of
the map occurs, for example one naming only unknown variables, is
returned unchanged, hence substitution is idempotent on such strings. -/
theorem c8_substitution (kvs : List (String × J)) (xs : List J) (b : Bool)
    (n : Int) (s : String) (vmap : List (String × String))
    (h : ∀ kv ∈ vmap, subOccurs (tok kv.1).toList s.toList = false) :
    substitute (.obj kvs) vmap = .obj (kvs.map (fun kv => (kv.1, substitute kv.2 vmap)))
    ∧ substitute (.arr xs) vmap = .arr (xs.map (fun v => substitute v vmap))
    ∧ substitute .null vmap = .null
    ∧ substitute (.bool b) vmap = .bool b
    ∧ substitute (.num n) vmap = .num n
    ∧ substitute (.str s) vmap = .str s
    ∧ substitute (substitute (.str s) vmap) vmap = substitute (.str s) vmap := by
  have hs : substitute (.str s) vmap = .str s := by
    simp only [substitute]
    exact congrArg J.str (substituteStr_not_occurs s vmap h)
  refine ⟨?_, ?_, rfl, rfl, rfl, hs, ?_⟩
  · simp only [substitute, substituteKVs_map]
  · simp only [substitute, substituteArr_map]
  · rw [hs, hs]

theorem c8_witness :
    substitute (.str "x-{unknown}") [("owner", "folio-org")] = .str "x-{unknown}" :=
  (c8_substitution [] [] false 0 "x-{unknown}" [("owner", "folio-org")]
    (by decide)).2.2.2.2.2.1

/-! Claim theorems: the dispatch loop. -/

lemma dispatch_foldl_aux (net : J → J → String → J → J → Bool)
    (vmap : List (String × String)) (wfs : List J) (e : Nat) (log : List Attempt) :
    wfs.foldl (fun acc wf =>
      match render_and_trigger net vmap wf with
      | .ok a => (acc.1, acc.2 ++ [a])
      | .error _ => (acc.1 + 1, acc.2)) (e, log)
    = (e + (wfs.filter (fun wf => !(render_and_trigger net vmap wf).isOk)).length,
       log ++ wfs.filterMap (fun wf => (render_and_trigger net vmap wf).toOption)) := by
  induction wfs generalizing e log with
  | nil => simp
  | cons wf rest ih =>
    cases h : render_and_trigger net vmap wf with
    | ok a =>
      simp [List.foldl_cons, h, ih, List.filter_cons, List.filterMap_cons,
            Except.isOk, Except.toBool, Except.toOption]
    | error msg =>
      simp [List.foldl_cons, h, ih, List.filter_cons, List.filterMap_cons,
            Except.isOk, Except.toBool, Except.toOption]
      omega

/-- C9 counterexample: a message with one well-formed workflow spec whose
dispatch request fails ends with an error count of zero, not the one the
claim asserts, because the collaborator catches its own failure and
returns false, a value the handler ignores; the spec was attempted and the
attempt records the failing call. -/
theorem c9_counterexample :
    (dispatch_workflows netFail [] [wfEx]).1 = 0 ∧
    (dispatch_workflows netFail [] [wfEx]).2.map (fun a => a.ok) = [false] ∧
    (0 : Nat) ≠ 1 :=
  ⟨rfl, rfl, by decide⟩

/-- C9 amended: failures are isolated per workflow-spec, but only an
exception escaping the per-spec block (a spec whose rendered value lacks a
required key or is not a mapping) increments the error count, by exactly
one per failing spec; every spec that renders successfully is dispatched,
in order, regardless of the request outcomes of the other specs, and a
dispatch collaborator failure is returned as false without incrementing
the error count. -/
theorem c9_dispatch_isolation (net : J → J → String → J → J → Bool)
    (vmap : List (String × String)) (wfs : List J) :
    (dispatch_workflows net vmap wfs).1
      = (wfs.filter (fun wf => !(render_and_trigger net vmap wf).isOk)).length
    ∧ (dispatch_workflows net vmap wfs).2
      = wfs.filterMap (fun wf => (render_and_trigger net vmap wf).toOption) := by
  unfold dispatch_workflows
  rw [dispatch_foldl_aux]
  simp

theorem c9_witness :
    (dispatch_workflows netFail [] [wfEx]).1
      = (([wfEx]).filter (fun wf => !(render_and_trigger netFail [] wf).isOk)).length
    ∧ (dispatch_workflows netFail [] [wfEx]).2
      = ([wfEx]).filterMap (fun wf => (render_and_trigger netFail [] wf).toOption) :=
  c9_dispatch_isolation netFail [] [wfEx]

end Listener
